import Mathlib

/-!
Verification of the flowbit `vanna` service (`src/services/vanna/main.py`).

The file embeds the `/generate-sql` request handler as pure Lean
functions: Python strings become `String`, the Groq chat call and the
psycopg2 connection become oracle functions passed in as parameters,
and the handler's branching is transcribed directly from the source.
-/

set_option maxRecDepth 100000

namespace Vanna

/-! ### Python string primitives -/

/-- ASCII lowercasing of one character, embedding Python `str.lower`
on the ASCII range (`A`-`Z` map to `a`-`z`, everything else fixed). -/
def lowerChar (c : Char) : Char :=
  if 65 ≤ c.toNat ∧ c.toNat ≤ 90 then Char.ofNat (c.toNat + 32) else c

/-- Embedding of Python `str.lower` (ASCII fragment). -/
def pyLower (s : String) : String := ⟨s.data.map lowerChar⟩

/-- Boolean prefix test on character lists. -/
def isPre : List Char → List Char → Bool
  | [], _ => true
  | _ :: _, [] => false
  | a :: as, b :: bs => a == b && isPre as bs

/-- Boolean substring test on character lists. -/
def containsSub (hay needle : List Char) : Bool :=
  match hay with
  | [] => needle.isEmpty
  | _ :: t => isPre needle hay || containsSub t needle

/-- Embedding of the Python containment test `needle in hay`. -/
def pyIn (needle hay : String) : Bool := containsSub hay.data needle.data

/-- Python whitespace characters stripped by `str.strip()`. -/
def isSpaceChar (c : Char) : Bool :=
  c == ' ' || c == '\t' || c == '\n' || c == '\x0d' || c == '\x0b' || c == '\x0c'

/-- Drop leading whitespace characters. -/
def dropLeadWs : List Char → List Char
  | [] => []
  | c :: cs => if isSpaceChar c then dropLeadWs cs else c :: cs

/-- Drop trailing whitespace characters. -/
def dropTrailWs (l : List Char) : List Char := (dropLeadWs l.reverse).reverse

/-- Embedding of Python `str.strip()` on character lists. -/
def stripData (l : List Char) : List Char := dropTrailWs (dropLeadWs l)

/-- Embedding of Python `str.strip()`. -/
def pyStrip (s : String) : String := ⟨stripData s.data⟩

/-- Fuel-indexed engine for Python `str.replace`: replaces every
non-overlapping occurrence of `old` left to right.  With `fuel` at
least the length of the input and `old` nonempty this is exactly
Python's semantics. -/
def replaceFuel (old new : List Char) : Nat → List Char → List Char
  | _, [] => []
  | 0, l => l
  | f + 1, c :: cs =>
    if isPre old (c :: cs) then new ++ replaceFuel old new f (List.drop old.length (c :: cs))
    else c :: replaceFuel old new f cs

/-- Embedding of Python `s.replace(old, new)` (for nonempty `old`). -/
def pyReplace (s old new : String) : String :=
  ⟨replaceFuel old.data new.data s.data.length s.data⟩

/-! ### Regex `\b(\d{3,6})\b` (rule 9's threshold extraction) -/

/-- ASCII decimal digit test (`\d`). -/
def digitChar (c : Char) : Bool := 48 ≤ c.toNat && c.toNat ≤ 57

/-- Regex word character (`\w` over ASCII): letter, digit or underscore. -/
def wordChar (c : Char) : Bool := c.isAlpha || digitChar c || c == '_'

/-- Longest leading run of digits. -/
def takeDigits : List Char → List Char
  | [] => []
  | c :: cs => if digitChar c then c :: takeDigits cs else []

/-- What remains after the leading digit run. -/
def dropDigits : List Char → List Char
  | [] => []
  | c :: cs => if digitChar c then dropDigits cs else c :: cs

/-- True when the list is empty or starts with a non-word character:
the state in which `\b` holds right after a digit run. -/
def nonWordStart : List Char → Bool
  | [] => true
  | c :: _ => !wordChar c

/-- Embedding of `re.search(r'\b(\d{3,6})\b', q)`: scan left to right;
`prevW` records whether the character before the current position is a
word character (`false` at the start of the string).  At each position
the engine matches when a word boundary precedes, the maximal digit run
there has length 3..6, and a word boundary follows the run. -/
def searchNum (prevW : Bool) : List Char → Option (List Char)
  | [] => none
  | c :: cs =>
    let run := takeDigits (c :: cs)
    if !prevW && decide (3 ≤ run.length) && decide (run.length ≤ 6)
        && nonWordStart (dropDigits (c :: cs))
    then some run
    else searchNum (wordChar c) cs

/-- `amount_match.group(1) if amount_match else "1000"` from the source. -/
def extractThreshold (q : String) : String :=
  match searchNum false q.data with
  | some r => ⟨r⟩
  | none => "1000"

/-! ### The twelve SQL templates (transcribed verbatim from `main.py`;
apostrophes are written `\x27`) -/

def sql1 : String := "\n        SELECT SUM(amount) AS total_spend\n        FROM \"Invoice\"\n        WHERE date >= CURRENT_DATE - INTERVAL \x2790 days\x27;\n        "

def sql2 : String := "\n        SELECT \n            COALESCE(\"Vendor\".name, \x27Unknown Vendor\x27) AS vendor_name,\n            SUM(\"Invoice\".amount) AS total_spend\n        FROM \"Invoice\"\n        LEFT JOIN \"Vendor\" ON \"Invoice\".\"vendorId\" = \"Vendor\".id\n        GROUP BY vendor_name\n        ORDER BY total_spend DESC\n        LIMIT 5;\n        "

def sql3 : String := "SELECT AVG(amount) AS avg_invoice_value FROM \"Invoice\";"

def sql4 : String := "\n        SELECT TO_CHAR(date_trunc(\x27month\x27, date), \x27YYYY-MM\x27) AS month,\n               SUM(ABS(amount)) AS cash_outflow\n        FROM \"Invoice\"\n        WHERE amount < 0\n        GROUP BY month\n        ORDER BY month;\n        "

def sql5 : String := "\n        SELECT \n            COALESCE(\"Vendor\".category, \x27Uncategorized\x27) AS category,\n            SUM(\"Invoice\".amount) AS total_spend\n        FROM \"Invoice\"\n        LEFT JOIN \"Vendor\" ON \"Invoice\".\"vendorId\" = \"Vendor\".id\n        GROUP BY category\n        ORDER BY total_spend DESC;\n        "

def sql6 : String := "\n        SELECT \"invoiceNo\", date, amount, status\n        FROM \"Invoice\"\n        WHERE status ILIKE \x27%pending%\x27 OR status ILIKE \x27%overdue%\x27;\n        "

def sql7 : String := "\n        SELECT \"invoiceNo\", date, amount, status\n        FROM \"Invoice\"\n        WHERE status ILIKE \x27%processed%\x27\n        AND date >= date_trunc(\x27month\x27, CURRENT_DATE)\n        ORDER BY date DESC;\n        "

def sql8 : String := "\n        SELECT \n            \"Vendor\".name AS vendor_name,\n            SUM(\"Invoice\".amount) AS total_spend\n        FROM \"Invoice\"\n        LEFT JOIN \"Vendor\" ON \"Invoice\".\"vendorId\" = \"Vendor\".id\n        WHERE date >= date_trunc(\x27quarter\x27, CURRENT_DATE)\n        GROUP BY vendor_name\n        ORDER BY total_spend DESC;\n        "

/-- Rule 9's template up to the interpolated threshold. -/
def sql9pre : String := "\n        SELECT \"invoiceNo\", date, amount, status\n        FROM \"Invoice\"\n        WHERE amount > "

/-- Rule 9's template after the interpolated threshold. -/
def sql9post : String := "\n        ORDER BY amount DESC;\n        "

/-- Rule 9's f-string with the extracted threshold interpolated. -/
def sql9 (q : String) : String := sql9pre ++ extractThreshold q ++ sql9post

def sql10 : String := "\n        SELECT SUM(amount) AS total_pending_amount\n        FROM \"Invoice\"\n        WHERE status ILIKE \x27%pending%\x27;\n        "

def sql11 : String := "\n        SELECT \n            \"Vendor\".name AS vendor_name,\n            COUNT(\"Invoice\".id) AS invoice_count\n        FROM \"Invoice\"\n        LEFT JOIN \"Vendor\" ON \"Invoice\".\"vendorId\" = \"Vendor\".id\n        GROUP BY vendor_name\n        ORDER BY invoice_count DESC;\n        "

def sql12 : String := "\n        SELECT \n            COALESCE(\"Vendor\".category, \x27Uncategorized\x27) AS category,\n            SUM(\"Invoice\".amount) AS total_spend\n        FROM \"Invoice\"\n        LEFT JOIN \"Vendor\" ON \"Invoice\".\"vendorId\" = \"Vendor\".id\n        WHERE date >= date_trunc(\x27year\x27, CURRENT_DATE)\n        GROUP BY category\n        ORDER BY total_spend DESC;\n        "

/-! ### The intent-rule cascade -/

/-- The condition of the `k`-th `if`/`elif` branch (1-indexed, in
source order) evaluated on the lowercased question. -/
def ruleMatch (k : Nat) (q : String) : Bool :=
  match k with
  | 1 => pyIn "total spend" q && pyIn "90" q
  | 2 => pyIn "top" q && pyIn "vendor" q
  | 3 => pyIn "average" q && pyIn "invoice" q
  | 4 => pyIn "cash outflow" q || pyIn "expenses" q
  | 5 => pyIn "spend by category" q || pyIn "category spend" q
  | 6 => pyIn "overdue" q || pyIn "pending" q
  | 7 => pyIn "processed" q && (pyIn "this month" q || pyIn "current month" q)
  | 8 => pyIn "compare" q && pyIn "vendor" q && pyIn "quarter" q
  | 9 => pyIn "above" q && pyIn "invoice" q
  | 10 => pyIn "total pending" q || pyIn "pending amount" q
  | 11 => pyIn "invoice count" q && pyIn "vendor" q
  | 12 => pyIn "category" q && pyIn "this year" q
  | _ => false

/-- The SQL the `k`-th branch assigns. -/
def ruleSql (k : Nat) (q : String) : String :=
  match k with
  | 1 => sql1
  | 2 => sql2
  | 3 => sql3
  | 4 => sql4
  | 5 => sql5
  | 6 => sql6
  | 7 => sql7
  | 8 => sql8
  | 9 => sql9 q
  | 10 => sql10
  | 11 => sql11
  | 12 => sql12
  | _ => ""

/-- The Intent Matcher: the `if`/`elif` cascade of `generate_sql`
(lines 43-152), returning `none` when control falls through to the
`else` (fallback) branch. -/
def matchRules (q : String) : Option String :=
  if ruleMatch 1 q then some (ruleSql 1 q)
  else if ruleMatch 2 q then some (ruleSql 2 q)
  else if ruleMatch 3 q then some (ruleSql 3 q)
  else if ruleMatch 4 q then some (ruleSql 4 q)
  else if ruleMatch 5 q then some (ruleSql 5 q)
  else if ruleMatch 6 q then some (ruleSql 6 q)
  else if ruleMatch 7 q then some (ruleSql 7 q)
  else if ruleMatch 8 q then some (ruleSql 8 q)
  else if ruleMatch 9 q then some (ruleSql 9 q)
  else if ruleMatch 10 q then some (ruleSql 10 q)
  else if ruleMatch 11 q then some (ruleSql 11 q)
  else if ruleMatch 12 q then some (ruleSql 12 q)
  else none

/-! ### Fallback Generator -/

/-- The fallback f-string up to the interpolated question. -/
def promptPre : String := "\nYou are an expert SQL assistant with knowledge of this PostgreSQL schema:\n\nTables:\n- \"Invoice\"(id, invoiceNo, vendorId, date, amount, status)\n- \"Vendor\"(id, name, category)\n- \"Payment\"(id, invoiceId, method, amount, date)\n- \"LineItem\"(id, description, quantity, price, invoiceId)\n\nGenerate a valid SQL query (PostgreSQL) to answer this question:\n"

/-- The fallback f-string after the interpolated question. -/
def promptPost : String := "\n\nReturn **only** SQL code (no explanations).\n"

/-- The prompt sent to the chat-completion model (lines 156-169). -/
def fallbackPrompt (q : String) : String := promptPre ++ q ++ promptPost

/-- Code-fence cleaning of the model's reply (lines 175-177):
`strip`, then if a triple backtick occurs, drop every occurrence of
"\x60\x60\x60sql" and of "\x60\x60\x60" and `strip` again. -/
def cleanSql (content : String) : String :=
  let s := pyStrip content
  if pyIn "\x60\x60\x60" s
  then pyStrip (pyReplace (pyReplace s "\x60\x60\x60sql" "") "\x60\x60\x60" "")
  else s

/-! ### Query Executor and response model -/

/-- Embedding of Python `zip(columns, row)`. -/
def pyZip {α β : Type} (a : List α) (b : List β) : List (α × β) := List.zip a b

/-- One insertion into a Python dict viewed as a lookup function:
the inserted key shadows any earlier binding. -/
def dictInsert {V : Type} (m : String → Option V) (k : String) (v : V) :
    String → Option V :=
  fun q => if q = k then some v else m q

/-- Embedding of Python `dict(pairs)`: insert the pairs left to right,
so a later duplicate key overwrites an earlier one. -/
def pyDict {V : Type} (ps : List (String × V)) : String → Option V :=
  ps.foldl (fun m p => dictInsert m p.1 p.2) (fun _ => none)

/-- The JSON payloads the handler can return, one constructor per
`return` statement of `generate_sql`. -/
inductive Resp (V : Type) : Type where
  | noQuery (error : String)
  | llmError (query error : String)
  | ok (query sql : String) (result : List (String → Option V))
  | execError (query sql error : String)

/-- The `query` field of a response, when present. -/
def respQuery {V : Type} : Resp V → Option String
  | .noQuery _ => none
  | .llmError q _ => some q
  | .ok q _ _ => some q
  | .execError q _ _ => some q

/-- The `sql` field of a response, when present. -/
def respSql {V : Type} : Resp V → Option String
  | .noQuery _ => none
  | .llmError _ _ => none
  | .ok _ s _ => some s
  | .execError _ s _ => some s

/-- The `error` field of a response, when present. -/
def respError {V : Type} : Resp V → Option String
  | .noQuery e => some e
  | .llmError _ e => some e
  | .ok _ _ _ => none
  | .execError _ _ e => some e

/-- The outward calls a request makes: each chat-completion call's
message list, and each SQL string handed to the database. -/
structure Trace where
  llmCalls : List (List (String × String))
  dbCalls : List String
deriving DecidableEq, Repr

/-- The Query Executor (lines 183-197).  `dbResult` stands for the
combined outcome of `get_db` / `cursor` / `execute` / `fetchall` /
`description`: column names and rows on success, the raised message on
failure.  The two booleans record whether `cur.close()` and
`conn.close()` ran; in the source both calls sit inside the `try`
block after the fetch, with no `finally`, so they run only on success. -/
def queryExecutor {V : Type} (dbResult : Except String (List String × List (List V)))
    (query sql : String) : Resp V × Bool × Bool :=
  match dbResult with
  | .error e => (Resp.execError query sql e, false, false)
  | .ok (cols, rows) =>
      (Resp.ok query sql (rows.map fun row => pyDict (pyZip cols row)), true, true)

/-- The `/generate-sql` handler (lines 34-197).  `llm` is the Groq
chat-completion oracle (messages to reply text or raised error), `db`
the database oracle, `body` the request's `query` field (`none` when
absent, in which case `body.get("query", "")` yields `""`). -/
def generateSql {V : Type} (llm : List (String × String) → Except String String)
    (db : String → Except String (List String × List (List V)))
    (body : Option String) : Resp V × Trace :=
  let query := pyLower (body.getD "")
  if query = "" then (Resp.noQuery "No query provided", ⟨[], []⟩)
  else
    match matchRules query with
    | some sql => ((queryExecutor (db sql) query sql).1, ⟨[], [sql]⟩)
    | none =>
      let msgs := [("user", fallbackPrompt query)]
      match llm msgs with
      | .error e => (Resp.llmError query e, ⟨[msgs], []⟩)
      | .ok content =>
        let sql := cleanSql content
        ((queryExecutor (db sql) query sql).1, ⟨[msgs], [sql]⟩)

/-! ### Concrete oracle stubs (used to exercise the handler) -/

/-- A chat oracle that always answers `SELECT 1;`. -/
def llmOkStub : List (String × String) → Except String String := fun _ => .ok "SELECT 1;"

/-- A chat oracle that always fails. -/
def llmErrStub : List (String × String) → Except String String := fun _ => .error "boom"

/-- A database oracle that returns no columns and no rows. -/
def dbOkStub : String → Except String (List String × List (List Nat)) := fun _ => .ok ([], [])

/-- A database oracle that always raises. -/
def dbErrStub : String → Except String (List String × List (List Nat)) :=
  fun _ => .error "syntax error at end of input"

/-- `true` exactly on `Except.ok`. -/
def isOkB {ε α : Type} : Except ε α → Bool
  | .ok _ => true
  | .error _ => false

/-! ### Helper lemmas -/

/-- First-match-wins for the `if`/`elif` cascade: if branch `k`'s
condition holds and no earlier one does, the cascade yields branch
`k`'s SQL. -/
theorem matchRules_first (q : String) (k : Nat) (hk1 : 1 ≤ k) (hk2 : k ≤ 12)
    (hs : ruleMatch k q = true)
    (hp : ∀ i, i < k → 1 ≤ i → ruleMatch i q = false) :
    matchRules q = some (ruleSql k q) := by
  interval_cases k
  · simp [matchRules, hs]
  · simp [matchRules, hs, hp 1 (by omega) (by omega)]
  · simp [matchRules, hs, hp 1 (by omega) (by omega), hp 2 (by omega) (by omega)]
  · simp [matchRules, hs, hp 1 (by omega) (by omega), hp 2 (by omega) (by omega),
      hp 3 (by omega) (by omega)]
  · simp [matchRules, hs, hp 1 (by omega) (by omega), hp 2 (by omega) (by omega),
      hp 3 (by omega) (by omega), hp 4 (by omega) (by omega)]
  · simp [matchRules, hs, hp 1 (by omega) (by omega), hp 2 (by omega) (by omega),
      hp 3 (by omega) (by omega), hp 4 (by omega) (by omega), hp 5 (by omega) (by omega)]
  · simp [matchRules, hs, hp 1 (by omega) (by omega), hp 2 (by omega) (by omega),
      hp 3 (by omega) (by omega), hp 4 (by omega) (by omega), hp 5 (by omega) (by omega),
      hp 6 (by omega) (by omega)]
  · simp [matchRules, hs, hp 1 (by omega) (by omega), hp 2 (by omega) (by omega),
      hp 3 (by omega) (by omega), hp 4 (by omega) (by omega), hp 5 (by omega) (by omega),
      hp 6 (by omega) (by omega), hp 7 (by omega) (by omega)]
  · simp [matchRules, hs, hp 1 (by omega) (by omega), hp 2 (by omega) (by omega),
      hp 3 (by omega) (by omega), hp 4 (by omega) (by omega), hp 5 (by omega) (by omega),
      hp 6 (by omega) (by omega), hp 7 (by omega) (by omega), hp 8 (by omega) (by omega)]
  · simp [matchRules, hs, hp 1 (by omega) (by omega), hp 2 (by omega) (by omega),
      hp 3 (by omega) (by omega), hp 4 (by omega) (by omega), hp 5 (by omega) (by omega),
      hp 6 (by omega) (by omega), hp 7 (by omega) (by omega), hp 8 (by omega) (by omega),
      hp 9 (by omega) (by omega)]
  · simp [matchRules, hs, hp 1 (by omega) (by omega), hp 2 (by omega) (by omega),
      hp 3 (by omega) (by omega), hp 4 (by omega) (by omega), hp 5 (by omega) (by omega),
      hp 6 (by omega) (by omega), hp 7 (by omega) (by omega), hp 8 (by omega) (by omega),
      hp 9 (by omega) (by omega), hp 10 (by omega) (by omega)]
  · simp [matchRules, hs, hp 1 (by omega) (by omega), hp 2 (by omega) (by omega),
      hp 3 (by omega) (by omega), hp 4 (by omega) (by omega), hp 5 (by omega) (by omega),
      hp 6 (by omega) (by omega), hp 7 (by omega) (by omega), hp 8 (by omega) (by omega),
      hp 9 (by omega) (by omega), hp 10 (by omega) (by omega), hp 11 (by omega) (by omega)]

/-- One character of `pyLower`, written out. -/
theorem lowerChar_toNat (c : Char) (h : 65 ≤ c.toNat ∧ c.toNat ≤ 90) :
    (lowerChar c).toNat = c.toNat + 32 := by
  rw [lowerChar, if_pos h, Char.ofNat, dif_pos (Or.inl (by omega))]
  rfl

/-- ASCII lowercasing is idempotent on characters. -/
theorem lowerChar_idem (c : Char) : lowerChar (lowerChar c) = lowerChar c := by
  by_cases h : 65 ≤ c.toNat ∧ c.toNat ≤ 90
  · have h2 := lowerChar_toNat c h
    set d := lowerChar c with hd
    rw [lowerChar, if_neg (by omega)]
  · have e : lowerChar c = c := by rw [lowerChar, if_neg h]
    rw [e, e]

/-- ASCII lowercasing is idempotent on character lists. -/
theorem mapLower_idem (l : List Char) :
    (l.map lowerChar).map lowerChar = l.map lowerChar := by
  induction l with
  | nil => rfl
  | cons c cs ih => simp [ih, lowerChar_idem]

/-- `pyLower` is idempotent. -/
theorem pyLower_idem (s : String) : pyLower (pyLower s) = pyLower s :=
  congrArg String.mk (mapLower_idem s.data)

/-! ### Claim C1 -/

/-- C1: for every question and every rule index `k` in 1..12, if the
lowercased question satisfies rule `k`'s predicate and no predicate of
an earlier rule, the Intent Matcher resolves it to exactly rule `k`'s
SQL template; no later rule's template can be produced once an earlier
rule matches. -/
theorem c1_first_match_wins (q : String) (k : Nat) (hk1 : 1 ≤ k) (hk2 : k ≤ 12)
    (hs : ruleMatch k (pyLower q) = true)
    (hp : ∀ i, i < k → 1 ≤ i → ruleMatch i (pyLower q) = false) :
    matchRules (pyLower q) = some (ruleSql k (pyLower q)) :=
  matchRules_first (pyLower q) k hk1 hk2 hs hp

/-- Witness for C1 at the question "Top Vendors overdue", which
satisfies both rule 2's and rule 6's predicates and resolves via
rule 2. -/
theorem c1_first_match_wins_witness :
    ruleMatch 2 (pyLower "Top Vendors overdue") = true ∧
    ruleMatch 6 (pyLower "Top Vendors overdue") = true ∧
    matchRules (pyLower "Top Vendors overdue") = some (ruleSql 2 (pyLower "Top Vendors overdue")) :=
  ⟨by decide, by decide,
    c1_first_match_wins "Top Vendors overdue" 2 (by omega) (by omega) (by decide) (by decide)⟩

/-! ### Claim C2 (corrected: only the exactly-empty query is rejected;
a whitespace-only query is truthy in Python and flows on) -/

/-- C2 counterexample: the whitespace-only query `" "` is not rejected
with the no-query-provided error; the rules are evaluated, none match,
and the fallback generator is invoked (one chat-completion call). -/
theorem c2_whitespace_counterexample :
    respError (generateSql llmOkStub dbOkStub (some " ")).1 = none ∧
    (generateSql llmOkStub dbOkStub (some " ")).2.llmCalls.length = 1 := by
  constructor
  · rfl
  · rfl

/-- C2 amended: a request whose `query` field is missing or exactly the
empty string fails immediately with the "No query provided" error, with
no chat-completion call and no database call. -/
theorem c2_empty_query {V : Type} (llm : List (String × String) → Except String String)
    (db : String → Except String (List String × List (List V)))
    (body : Option String) (h : body = none ∨ body = some "") :
    generateSql llm db body = (Resp.noQuery "No query provided", ⟨[], []⟩) := by
  rcases h with rfl | rfl <;> rfl

/-- Witness for C2 at the empty query. -/
theorem c2_empty_query_witness :
    (some "" = none ∨ (some "" : Option String) = some "") ∧
    generateSql llmOkStub dbOkStub (some "") = (Resp.noQuery "No query provided", ⟨[], []⟩) :=
  ⟨Or.inr rfl, c2_empty_query llmOkStub dbOkStub (some "") (Or.inr rfl)⟩

/-! ### Claim C9 -/

/-- C9: intent resolution is invariant under letter case of the input:
the handler behaves identically on a question and on its lowercased
form; in particular "TOTAL SPEND in last 90 days" resolves to rule 1's
template exactly as "total spend 90" does. -/
theorem c9_case_invariance :
    (∀ (V : Type) (llm : List (String × String) → Except String String)
      (db : String → Except String (List String × List (List V))) (q : String),
      generateSql llm db (some q) = generateSql llm db (some (pyLower q))) ∧
    matchRules (pyLower "TOTAL SPEND in last 90 days") = some sql1 ∧
    matchRules (pyLower "total spend 90") = some sql1 := by
  refine ⟨fun V llm db q => ?_, by decide, by decide⟩
  simp only [generateSql, Option.getD_some, pyLower_idem]

/-! ### Claim C6 (corrected: the close calls sit inside the `try`
block after the fetch, with no `finally`, so they run only on success) -/

/-- C6 counterexample: when execution raises, the executor returns the
error payload with neither the cursor nor the connection closed. -/
theorem c6_counterexample :
    queryExecutor (V := Nat) (.error "syntax error at end of input") "q" "SELEC 1" =
      (Resp.execError "q" "SELEC 1" "syntax error at end of input", false, false) := rfl

/-- C6 amended: the Query Executor closes the cursor and the connection
exactly when execution completes successfully; when execution fails the
`except` branch returns without closing either. -/
theorem c6_close_iff_success {V : Type}
    (d : Except String (List String × List (List V))) (query sql : String) :
    (queryExecutor d query sql).2.1 = isOkB d ∧ (queryExecutor d query sql).2.2 = isOkB d := by
  cases d with
  | error e => exact ⟨rfl, rfl⟩
  | ok p => exact ⟨rfl, rfl⟩

/-! ### Claim C10 -/

/-- A Python dict built by left-to-right insertion looks up to the last
binding of a key, or to the fallback map when the key is absent. -/
theorem foldl_dictInsert_eq {V : Type} (ps : List (String × V)) :
    ∀ (m : String → Option V) (k : String),
      ps.foldl (fun m p => dictInsert m p.1 p.2) m k =
        (match ps.reverse.find? (fun p => p.1 == k) with
          | some p => some p.2
          | none => m k) := by
  induction ps with
  | nil => intro m k; rfl
  | cons p ps ih =>
    intro m k
    simp only [List.foldl_cons, List.reverse_cons, List.find?_append]
    rw [ih]
    cases hf : ps.reverse.find? (fun p => p.1 == k) with
    | some v => simp
    | none =>
      simp only [Option.none_or, List.find?]
      by_cases hk : p.1 = k
      · have hb : (p.1 == k) = true := by simp [hk]
        simp [hb, dictInsert, hk]
      · have hb : (p.1 == k) = false := by simp [hk]
        have hk2 : ¬ k = p.1 := fun h => hk h.symm
        simp [hb, dictInsert, hk2]

/-- C10: each record of the Result Set pairs the column names
positionally with the row's cells; a key bound twice keeps only the
value of the last column of that name, and the pairing stops at the
shorter of the column list and the row. -/
theorem c10_record_building {V : Type} (cols : List String) (row : List V) (k : String) :
    pyDict (pyZip cols row) k =
      ((pyZip cols row).reverse.find? (fun p => p.1 == k)).map Prod.snd ∧
    (pyZip cols row).length = min cols.length row.length := by
  constructor
  · rw [pyDict, foldl_dictInsert_eq]
    cases (pyZip cols row).reverse.find? (fun p => p.1 == k) <;> rfl
  · simp [pyZip]

/-! ### Claim C4 (corrected: the response carries the lowercased
question, not the original mixed-case text) -/

/-- C4 counterexample: on a chat-completion failure for the question
"Show Me The Money", the response carries the lowercased question and
the error; the original mixed-case question occurs in neither field. -/
theorem c4_counterexample :
    (generateSql llmErrStub dbOkStub (some "Show Me The Money")).1 =
      Resp.llmError "show me the money" "boom" ∧
    pyIn "Show Me The Money" "show me the money" = false ∧
    pyIn "Show Me The Money" "boom" = false :=
  ⟨rfl, by decide, by decide⟩

/-- C4 amended: on any failure of the chat-completion call during the
fallback path, the handler returns the error payload carrying the
lowercased question and the failure message, with no SQL field, and
the Query Executor is never invoked. -/
theorem c4_llm_failure {V : Type} (llm : List (String × String) → Except String String)
    (db : String → Except String (List String × List (List V))) (q e : String)
    (hq : pyLower q ≠ "")
    (hm : matchRules (pyLower q) = none)
    (he : llm [("user", fallbackPrompt (pyLower q))] = .error e) :
    generateSql llm db (some q) =
      (Resp.llmError (pyLower q) e, ⟨[[("user", fallbackPrompt (pyLower q))]], []⟩) ∧
    respSql (generateSql llm db (some q)).1 = none := by
  have h : generateSql llm db (some q) =
      (Resp.llmError (pyLower q) e, ⟨[[("user", fallbackPrompt (pyLower q))]], []⟩) := by
    simp only [generateSql, Option.getD_some, if_neg hq, hm, he]
  exact ⟨h, by rw [h]; rfl⟩

/-- Witness for C4 at the question "how are you" with a failing chat
oracle. -/
theorem c4_llm_failure_witness :
    pyLower "how are you" ≠ "" ∧
    matchRules (pyLower "how are you") = none ∧
    llmErrStub [("user", fallbackPrompt (pyLower "how are you"))] = .error "boom" ∧
    (generateSql llmErrStub dbOkStub (some "how are you") =
      (Resp.llmError (pyLower "how are you") "boom",
        ⟨[[("user", fallbackPrompt (pyLower "how are you"))]], []⟩) ∧
      respSql (generateSql llmErrStub dbOkStub (some "how are you")).1 = none) :=
  ⟨by decide, by decide, rfl,
    c4_llm_failure llmErrStub dbOkStub "how are you" "boom" (by decide) (by decide) rfl⟩

/-! ### Claim C5 (corrected: the response carries the lowercased
question, not the original mixed-case text) -/

/-- C5 counterexample: "Average Invoice Size" resolves via rule 3; on
an execution failure the response carries the lowercased question, the
attempted SQL and the error, and the original mixed-case question
occurs in none of them. -/
theorem c5_counterexample :
    (generateSql llmOkStub dbErrStub (some "Average Invoice Size")).1 =
      Resp.execError "average invoice size" sql3 "syntax error at end of input" ∧
    pyIn "Average Invoice Size" "average invoice size" = false ∧
    pyIn "Average Invoice Size" sql3 = false ∧
    pyIn "Average Invoice Size" "syntax error at end of input" = false :=
  ⟨rfl, by decide, by decide, by decide⟩

/-- C5 amended: whenever the resolved SQL's execution raises — whether
the SQL came from an intent rule or from a successful fallback call —
the handler returns a normal error payload carrying the lowercased
question, the attempted SQL and the error message; the handler is a
total function, so no exception escapes. -/
theorem c5_exec_failure {V : Type} (llm : List (String × String) → Except String String)
    (db : String → Except String (List String × List (List V))) (q s e : String)
    (hq : pyLower q ≠ "")
    (hres : matchRules (pyLower q) = some s ∨
      (matchRules (pyLower q) = none ∧
        ∃ c, llm [("user", fallbackPrompt (pyLower q))] = .ok c ∧ cleanSql c = s))
    (hdb : db s = .error e) :
    (generateSql llm db (some q)).1 = Resp.execError (pyLower q) s e := by
  rcases hres with hm | ⟨hm, c, hc, hclean⟩
  · simp only [generateSql, Option.getD_some, if_neg hq, hm, hdb, queryExecutor]
  · simp only [generateSql, Option.getD_some, if_neg hq, hm, hc, hclean, hdb, queryExecutor]

/-- Witness for C5 at the question "average invoice value" with a
failing database oracle. -/
theorem c5_exec_failure_witness :
    pyLower "average invoice value" ≠ "" ∧
    matchRules (pyLower "average invoice value") = some sql3 ∧
    dbErrStub sql3 = .error "syntax error at end of input" ∧
    (generateSql llmOkStub dbErrStub (some "average invoice value")).1 =
      Resp.execError (pyLower "average invoice value") sql3 "syntax error at end of input" :=
  ⟨by decide, by decide, rfl,
    c5_exec_failure llmOkStub dbErrStub "average invoice value" sql3
      "syntax error at end of input" (by decide) (Or.inl (by decide)) rfl⟩

/-! ### Substring lemmas for the prompt -/

/-- Every list is a prefix of itself. -/
theorem isPre_refl (l : List Char) : isPre l l = true := by
  induction l with
  | nil => rfl
  | cons c cs ih => simp [isPre, ih]

/-- A prefix of `a` is a prefix of `a ++ b`. -/
theorem isPre_append (x : List Char) :
    ∀ a b : List Char, isPre x a = true → isPre x (a ++ b) = true := by
  induction x with
  | nil => intro a b _; rfl
  | cons c cs ih =>
    intro a b h
    cases a with
    | nil => exact absurd h (by simp [isPre])
    | cons d ds =>
      simp only [isPre, Bool.and_eq_true] at h
      simp only [List.cons_append, isPre, Bool.and_eq_true]
      exact ⟨h.1, ih ds b h.2⟩

/-- The empty needle occurs in every haystack. -/
theorem containsSub_nil (l : List Char) : containsSub l [] = true := by
  cases l with
  | nil => rfl
  | cons c cs => simp [containsSub, isPre]

/-- A needle occurring in `a` occurs in `a ++ b`. -/
theorem containsSub_append_left (x : List Char) :
    ∀ a b : List Char, containsSub a x = true → containsSub (a ++ b) x = true := by
  intro a
  induction a with
  | nil =>
    intro b h
    simp only [containsSub, List.isEmpty_iff] at h
    subst h
    exact containsSub_nil b
  | cons c t ih =>
    intro b h
    simp only [containsSub, Bool.or_eq_true] at h
    rcases h with h | h
    · simp only [List.cons_append, containsSub, Bool.or_eq_true]
      exact Or.inl (isPre_append x (c :: t) b h)
    · simp only [List.cons_append, containsSub, Bool.or_eq_true]
      exact Or.inr (ih b h)

/-- A needle occurs in any haystack that ends with it. -/
theorem containsSub_append_self (x : List Char) :
    ∀ a : List Char, containsSub (a ++ x) x = true := by
  intro a
  induction a with
  | nil =>
    cases x with
    | nil => rfl
    | cons c cs => simp [containsSub, isPre_refl]
  | cons c t ih =>
    simp only [List.cons_append, containsSub, Bool.or_eq_true]
    exact Or.inr ih

/-- Anything occurring in the fixed prompt prefix occurs in the full
prompt. -/
theorem pyIn_promptPre (x Q : String) (h : containsSub promptPre.data x.data = true) :
    pyIn x (fallbackPrompt Q) = true := by
  show containsSub ((promptPre.data ++ Q.data) ++ promptPost.data) x.data = true
  exact containsSub_append_left _ _ _ (containsSub_append_left _ _ _ h)

/-- The interpolated question occurs in the full prompt. -/
theorem pyIn_prompt_self (Q : String) : pyIn Q (fallbackPrompt Q) = true := by
  show containsSub ((promptPre.data ++ Q.data) ++ promptPost.data) Q.data = true
  exact containsSub_append_left _ _ _ (containsSub_append_self _ _)

/-! ### Claim C8 (corrected: the prompt embeds the lowercased question,
not the literal question text) -/

/-- C8 counterexample: for the unmatched question "Zzz Qqq" the
fallback is invoked with the lowercased text, and the prompt does not
contain the literal question. -/
theorem c8_counterexample :
    (generateSql llmOkStub dbOkStub (some "Zzz Qqq")).2.llmCalls =
      [[("user", fallbackPrompt "zzz qqq")]] ∧
    pyIn "Zzz Qqq" (fallbackPrompt "zzz qqq") = false :=
  ⟨rfl, by decide⟩

/-- C8 amended: for every nonempty question matching no intent rule,
the fallback is invoked exactly once, with a single user-role message
whose prompt contains the lowercased question text and all four table
schema declarations. -/
theorem c8_fallback_once {V : Type} (llm : List (String × String) → Except String String)
    (db : String → Except String (List String × List (List V))) (q : String)
    (hq : pyLower q ≠ "") (hm : matchRules (pyLower q) = none) :
    (generateSql llm db (some q)).2.llmCalls = [[("user", fallbackPrompt (pyLower q))]] ∧
    pyIn (pyLower q) (fallbackPrompt (pyLower q)) = true ∧
    pyIn "- \"Invoice\"(id, invoiceNo, vendorId, date, amount, status)"
      (fallbackPrompt (pyLower q)) = true ∧
    pyIn "- \"Vendor\"(id, name, category)" (fallbackPrompt (pyLower q)) = true ∧
    pyIn "- \"Payment\"(id, invoiceId, method, amount, date)"
      (fallbackPrompt (pyLower q)) = true ∧
    pyIn "- \"LineItem\"(id, description, quantity, price, invoiceId)"
      (fallbackPrompt (pyLower q)) = true := by
  refine ⟨?_, pyIn_prompt_self _, pyIn_promptPre _ _ (by decide), pyIn_promptPre _ _ (by decide),
    pyIn_promptPre _ _ (by decide), pyIn_promptPre _ _ (by decide)⟩
  cases hllm : llm [("user", fallbackPrompt (pyLower q))] with
  | error e => simp only [generateSql, Option.getD_some, if_neg hq, hm, hllm]
  | ok c => simp only [generateSql, Option.getD_some, if_neg hq, hm, hllm]

/-- Witness for C8 at the unmatched question "how many payments were
late". -/
theorem c8_fallback_once_witness :
    pyLower "how many payments were late" ≠ "" ∧
    matchRules (pyLower "how many payments were late") = none ∧
    ((generateSql llmOkStub dbOkStub (some "how many payments were late")).2.llmCalls =
      [[("user", fallbackPrompt (pyLower "how many payments were late"))]] ∧
    pyIn (pyLower "how many payments were late")
      (fallbackPrompt (pyLower "how many payments were late")) = true ∧
    pyIn "- \"Invoice\"(id, invoiceNo, vendorId, date, amount, status)"
      (fallbackPrompt (pyLower "how many payments were late")) = true ∧
    pyIn "- \"Vendor\"(id, name, category)"
      (fallbackPrompt (pyLower "how many payments were late")) = true ∧
    pyIn "- \"Payment\"(id, invoiceId, method, amount, date)"
      (fallbackPrompt (pyLower "how many payments were late")) = true ∧
    pyIn "- \"LineItem\"(id, description, quantity, price, invoiceId)"
      (fallbackPrompt (pyLower "how many payments were late")) = true) :=
  ⟨by decide, by decide,
    c8_fallback_once llmOkStub dbOkStub "how many payments were late" (by decide) (by decide)⟩

/-! ### Declarative reading of `\b(\d{3,6})\b` -/

/-- Whether the character just before the current position is a word
character: `prevW` when the prefix is empty, otherwise the word-ness of
the prefix's last character. -/
def lastW (prevW : Bool) : List Char → Bool
  | [] => prevW
  | c :: cs => lastW (wordChar c) cs

/-- `MatchAt prevW l i r`: the regex `\b(\d{3,6})\b` matches `r` at
start position `i` of `l`, where `prevW` tells whether a word
character immediately precedes `l`.  `r` is a run of 3 to 6 digits
with a word boundary on each side — a standalone 3-to-6-digit
number. -/
def MatchAt (prevW : Bool) (l : List Char) (i : Nat) (r : List Char) : Prop :=
  ∃ pre post, l = pre ++ r ++ post ∧ pre.length = i ∧ 3 ≤ r.length ∧ r.length ≤ 6 ∧
    r.all digitChar = true ∧ lastW prevW pre = false ∧ nonWordStart post = true

/-- A digit is a word character. -/
theorem wordChar_of_digit {c : Char} (h : digitChar c = true) : wordChar c = true := by
  simp [wordChar, h]

/-- The digit run and its remainder reassemble the list. -/
theorem takeDigits_append_dropDigits (l : List Char) : takeDigits l ++ dropDigits l = l := by
  induction l with
  | nil => rfl
  | cons c cs ih =>
    by_cases h : digitChar c = true
    · simp [takeDigits, dropDigits, h, ih]
    · simp [takeDigits, dropDigits, h]

/-- The digit run consists of digits. -/
theorem all_digitChar_takeDigits (l : List Char) : (takeDigits l).all digitChar = true := by
  induction l with
  | nil => rfl
  | cons c cs ih =>
    by_cases h : digitChar c = true
    · simp [takeDigits, h, ih]
    · simp [takeDigits, h]

/-- A decomposition into a digit block followed by a non-word start is
exactly the `takeDigits`/`dropDigits` decomposition. -/
theorem takeDigits_of_digits :
    ∀ r post : List Char, r.all digitChar = true → nonWordStart post = true →
      takeDigits (r ++ post) = r ∧ dropDigits (r ++ post) = post := by
  intro r
  induction r with
  | nil =>
    intro post _ hpost
    cases post with
    | nil => exact ⟨rfl, rfl⟩
    | cons c cs =>
      have hw : wordChar c = false := by
        simp only [nonWordStart, Bool.not_eq_true'] at hpost
        exact hpost
      have hd : digitChar c = false := by
        cases hdc : digitChar c with
        | false => rfl
        | true => rw [wordChar_of_digit hdc] at hw; exact absurd hw (by simp)
      simp [takeDigits, dropDigits, hd]
  | cons d ds ih =>
    intro post hall hpost
    simp only [List.all_cons, Bool.and_eq_true] at hall
    have := ih post hall.2 hpost
    simp [takeDigits, dropDigits, hall.1, this.1, this.2]

/-- No match exists in the empty list. -/
theorem matchAt_nil (prevW : Bool) (i : Nat) (r : List Char) :
    ¬ MatchAt prevW [] i r := by
  rintro ⟨pre, post, heq, -, h3, -, -, -, -⟩
  have hl := congrArg List.length heq
  simp [List.length_append] at hl
  omega

/-- Matches one position in are matches of the tail. -/
theorem matchAt_cons_succ (prevW : Bool) (c : Char) (l : List Char) (i : Nat)
    (r : List Char) : MatchAt prevW (c :: l) (i + 1) r ↔ MatchAt (wordChar c) l i r := by
  constructor
  · rintro ⟨pre, post, heq, hlen, h3, h6, hall, hlast, hpost⟩
    cases pre with
    | nil => simp at hlen
    | cons d ds =>
      simp only [List.cons_append, List.cons.injEq] at heq
      refine ⟨ds, post, heq.2, by simpa using hlen, h3, h6, hall, ?_, hpost⟩
      rw [heq.1]
      exact hlast
  · rintro ⟨pre, post, heq, hlen, h3, h6, hall, hlast, hpost⟩
    exact ⟨c :: pre, post, by simp [heq], by simp [hlen], h3, h6, hall, hlast, hpost⟩

/-- Matches at position 0 are exactly what the scanner's branch
condition tests. -/
theorem matchAt_zero_iff (prevW : Bool) (c : Char) (l : List Char) (r : List Char) :
    MatchAt prevW (c :: l) 0 r ↔
      prevW = false ∧ r = takeDigits (c :: l) ∧ 3 ≤ r.length ∧ r.length ≤ 6 ∧
        nonWordStart (dropDigits (c :: l)) = true := by
  constructor
  · rintro ⟨pre, post, heq, hlen, h3, h6, hall, hlast, hpost⟩
    have hpre : pre = [] := List.length_eq_zero.mp hlen
    subst hpre
    simp only [List.nil_append] at heq
    obtain ⟨ht, hd⟩ := takeDigits_of_digits r post hall hpost
    rw [← heq] at ht hd
    exact ⟨hlast, ht.symm, h3, h6, by rw [hd]; exact hpost⟩
  · rintro ⟨hprev, hr, h3, h6, hpost⟩
    refine ⟨[], dropDigits (c :: l), ?_, rfl, h3, h6, ?_, hprev, hpost⟩
    · rw [hr, List.nil_append, takeDigits_append_dropDigits]
    · rw [hr]; exact all_digitChar_takeDigits (c :: l)

/-- Correctness of the scanner: when it returns a run, that run is a
standalone 3-to-6-digit number at a leftmost match position; when it
returns nothing, no standalone 3-to-6-digit number exists. -/
theorem searchNum_spec (l : List Char) : ∀ prevW : Bool,
    (∀ r, searchNum prevW l = some r →
      ∃ i, MatchAt prevW l i r ∧ ∀ j s, MatchAt prevW l j s → i ≤ j) ∧
    (searchNum prevW l = none → ∀ j s, ¬ MatchAt prevW l j s) := by
  induction l with
  | nil =>
    intro prevW
    exact ⟨fun r hr => by simp [searchNum] at hr, fun _ j s => matchAt_nil prevW j s⟩
  | cons c cs ih =>
    intro prevW
    by_cases hcond : (!prevW && decide (3 ≤ (takeDigits (c :: cs)).length)
        && decide ((takeDigits (c :: cs)).length ≤ 6)
        && nonWordStart (dropDigits (c :: cs))) = true
    · have hstep : searchNum prevW (c :: cs) = some (takeDigits (c :: cs)) := by
        simp only [searchNum]
        rw [if_pos hcond]
      simp only [Bool.and_eq_true, Bool.not_eq_true', decide_eq_true_eq] at hcond
      constructor
      · intro r hr
        rw [hstep, Option.some.injEq] at hr
        subst hr
        refine ⟨0, ?_, fun j s _ => Nat.zero_le j⟩
        exact (matchAt_zero_iff prevW c cs _).mpr
          ⟨hcond.1.1.1, rfl, hcond.1.1.2, hcond.1.2, hcond.2⟩
      · intro h
        rw [hstep] at h
        exact absurd h (by simp)
    · have hstep : searchNum prevW (c :: cs) = searchNum (wordChar c) cs := by
        simp only [searchNum]
        rw [if_neg hcond]
      obtain ⟨ih1, ih2⟩ := ih (wordChar c)
      have hzero : ∀ s, ¬ MatchAt prevW (c :: cs) 0 s := by
        intro s hs
        obtain ⟨hprev, hr, h3, h6, hpost⟩ := (matchAt_zero_iff prevW c cs s).mp hs
        apply hcond
        rw [hr] at h3 h6
        simp [hprev, h3, h6, hpost]
      constructor
      · intro r hr
        rw [hstep] at hr
        obtain ⟨i, hm, hmin⟩ := ih1 r hr
        refine ⟨i + 1, (matchAt_cons_succ prevW c cs i r).mpr hm, ?_⟩
        intro j s hj
        cases j with
        | zero => exact absurd hj (hzero s)
        | succ j' =>
          have := hmin j' s ((matchAt_cons_succ prevW c cs j' s).mp hj)
          omega
      · intro h j s hj
        rw [hstep] at h
        cases j with
        | zero => exact hzero s hj
        | succ j' => exact ih2 h j' s ((matchAt_cons_succ prevW c cs j' s).mp hj)

/-! ### Claim C3 -/

/-- C3: for a question that resolves via rule 9, the SQL produced is
rule 9's template with the threshold interpolated, and the threshold
is the first standalone 3-to-6-digit number of the (lowercased)
question — leftmost match of `\b(\d{3,6})\b` — or the literal `1000`
when no such number exists. -/
theorem c3_threshold (q : String) (h9 : ruleMatch 9 (pyLower q) = true)
    (hp : ∀ i, i < 9 → 1 ≤ i → ruleMatch i (pyLower q) = false) :
    matchRules (pyLower q) =
      some (sql9pre ++ extractThreshold (pyLower q) ++ sql9post) ∧
    ((∃ i r, extractThreshold (pyLower q) = ⟨r⟩ ∧ MatchAt false (pyLower q).data i r ∧
        ∀ j s, MatchAt false (pyLower q).data j s → i ≤ j) ∨
      (extractThreshold (pyLower q) = "1000" ∧
        ∀ j s, ¬ MatchAt false (pyLower q).data j s)) := by
  constructor
  · exact matchRules_first (pyLower q) 9 (by omega) (by omega) h9 hp
  · obtain ⟨hsome, hnone⟩ := searchNum_spec (pyLower q).data false
    cases hd : searchNum false (pyLower q).data with
    | some r =>
      obtain ⟨i, hm, hmin⟩ := hsome r hd
      exact Or.inl ⟨i, r, by simp [extractThreshold, hd], hm, hmin⟩
    | none =>
      exact Or.inr ⟨by simp [extractThreshold, hd], hnone hd⟩

/-- Witness for C3 at "invoices above 5000" (threshold 5000) and
"invoices above" (default 1000). -/
theorem c3_threshold_witness :
    (matchRules (pyLower "invoices above 5000") =
      some (sql9pre ++ extractThreshold (pyLower "invoices above 5000") ++ sql9post) ∧
      extractThreshold (pyLower "invoices above 5000") = "5000") ∧
    (matchRules (pyLower "invoices above") =
      some (sql9pre ++ extractThreshold (pyLower "invoices above") ++ sql9post) ∧
      extractThreshold (pyLower "invoices above") = "1000") :=
  ⟨⟨(c3_threshold "invoices above 5000" (by decide) (by decide)).1, by decide⟩,
    ⟨(c3_threshold "invoices above" (by decide) (by decide)).1, by decide⟩⟩

/-! ### Replacement and stripping lemmas for the fence cleaner -/

/-- Replacement on the empty list is empty, whatever the fuel. -/
theorem replaceFuel_nil (old new : List Char) (f : Nat) :
    replaceFuel old new f [] = [] := by
  cases f <;> rfl

/-- A non-matching head character is kept. -/
theorem replaceFuel_cons_skip (old new : List Char) (c : Char) (cs : List Char)
    (f : Nat) (h : isPre old (c :: cs) = false) (hf : 1 ≤ f) :
    replaceFuel old new f (c :: cs) = c :: replaceFuel old new (f - 1) cs := by
  obtain ⟨f1, rfl⟩ : ∃ f1, f = f1 + 1 := ⟨f - 1, by omega⟩
  simp [replaceFuel, h]

/-- A matching head occurrence is replaced. -/
theorem replaceFuel_cons_match (old new : List Char) (c : Char) (cs : List Char)
    (f : Nat) (h : isPre old (c :: cs) = true) (hf : 1 ≤ f) :
    replaceFuel old new f (c :: cs) =
      new ++ replaceFuel old new (f - 1) (List.drop old.length (c :: cs)) := by
  obtain ⟨f1, rfl⟩ : ∃ f1, f = f1 + 1 := ⟨f - 1, by omega⟩
  simp [replaceFuel, h]

/-- A segment free of the pattern's first character is copied
verbatim. -/
theorem replaceFuel_skip_seg (o : Char) (os new : List Char) :
    ∀ (seg : List Char), (∀ c ∈ seg, (o == c) = false) →
      ∀ (f : Nat) (rest : List Char), seg.length ≤ f →
        replaceFuel (o :: os) new f (seg ++ rest) =
          seg ++ replaceFuel (o :: os) new (f - seg.length) rest := by
  intro seg
  induction seg with
  | nil => intro _ f rest _; simp
  | cons c cs ih =>
    intro hseg f rest hf
    have hc : (o == c) = false := hseg c (by simp)
    have hpre : isPre (o :: os) (c :: (cs ++ rest)) = false := by
      simp [isPre, hc]
    have hf1 : cs.length + 1 ≤ f := by simpa using hf
    rw [List.cons_append, replaceFuel_cons_skip _ _ _ _ f hpre (by omega)]
    rw [ih (fun d hd => hseg d (by simp [hd])) (f - 1) rest (by omega)]
    simp only [List.length_cons]
    have h2 : f - 1 - cs.length = f - (cs.length + 1) := by omega
    rw [h2, List.cons_append]

/-- The trailing `"\n\x60\x60\x60"` contains no occurrence of
`"\x60\x60\x60sql"`, so the first replacement leaves it alone. -/
theorem replaceFuel_tailA (new : List Char) (f : Nat) (hf : 4 ≤ f) :
    replaceFuel ['\x60', '\x60', '\x60', 's', 'q', 'l'] new f ['\n', '\x60', '\x60', '\x60'] =
      ['\n', '\x60', '\x60', '\x60'] := by
  rw [replaceFuel_cons_skip _ _ _ _ f (by decide) (by omega)]
  rw [replaceFuel_cons_skip _ _ _ _ (f - 1) (by decide) (by omega)]
  rw [replaceFuel_cons_skip _ _ _ _ (f - 1 - 1) (by decide) (by omega)]
  rw [replaceFuel_cons_skip _ _ _ _ (f - 1 - 1 - 1) (by decide) (by omega)]
  rw [replaceFuel_nil]

/-- The second replacement erases the trailing fence, keeping the
newline. -/
theorem replaceFuel_tailB (f : Nat) (hf : 2 ≤ f) :
    replaceFuel ['\x60', '\x60', '\x60'] [] f ['\n', '\x60', '\x60', '\x60'] = ['\n'] := by
  rw [replaceFuel_cons_skip _ _ _ _ f (by decide) (by omega)]
  rw [replaceFuel_cons_match _ _ _ _ (f - 1) (by decide) (by omega)]
  simp [replaceFuel_nil]

/-- Erasing `"\x60\x60\x60sql"` from the fenced reply: the leading
fence goes, a backtick-free body and the trailing fence stay. -/
theorem replace1 (b : List Char) (hb : ∀ c ∈ b, ('\x60' == c) = false)
    (f : Nat) (hf : b.length + 11 ≤ f) :
    replaceFuel ['\x60', '\x60', '\x60', 's', 'q', 'l'] [] f
      ('\x60' :: '\x60' :: '\x60' :: 's' :: 'q' :: 'l' :: '\n' ::
        (b ++ ['\n', '\x60', '\x60', '\x60'])) =
      '\n' :: (b ++ ['\n', '\x60', '\x60', '\x60']) := by
  rw [replaceFuel_cons_match _ _ _ _ f (by simp [isPre]) (by omega)]
  have hdrop : List.drop ['\x60', '\x60', '\x60', 's', 'q', 'l'].length
      ('\x60' :: '\x60' :: '\x60' :: 's' :: 'q' :: 'l' :: '\n' ::
        (b ++ ['\n', '\x60', '\x60', '\x60'])) =
      '\n' :: (b ++ ['\n', '\x60', '\x60', '\x60']) := rfl
  rw [hdrop, List.nil_append]
  have hnl : isPre ['\x60', '\x60', '\x60', 's', 'q', 'l']
      ('\n' :: (b ++ ['\n', '\x60', '\x60', '\x60'])) = false := by
    have hc : ('\x60' == '\n') = false := by decide
    simp [isPre, hc]
  rw [replaceFuel_cons_skip _ _ _ _ (f - 1) hnl (by omega)]
  rw [replaceFuel_skip_seg '\x60' _ _ b hb (f - 1 - 1) _ (by omega)]
  rw [replaceFuel_tailA _ _ (by omega)]

/-- Erasing `"\x60\x60\x60"` from what the first pass left: only the
trailing fence goes. -/
theorem replace2 (b : List Char) (hb : ∀ c ∈ b, ('\x60' == c) = false)
    (f : Nat) (hf : b.length + 5 ≤ f) :
    replaceFuel ['\x60', '\x60', '\x60'] [] f
      ('\n' :: (b ++ ['\n', '\x60', '\x60', '\x60'])) = '\n' :: (b ++ ['\n']) := by
  have hnl : isPre ['\x60', '\x60', '\x60']
      ('\n' :: (b ++ ['\n', '\x60', '\x60', '\x60'])) = false := by
    have hc : ('\x60' == '\n') = false := by decide
    simp [isPre, hc]
  rw [replaceFuel_cons_skip _ _ _ _ f hnl (by omega)]
  rw [replaceFuel_skip_seg '\x60' _ _ b hb (f - 1) _ (by omega)]
  rw [replaceFuel_tailB _ (by omega)]

/-- A haystack beginning with the needle contains it. -/
theorem containsSub_of_isPre (l x : List Char) (h : isPre x l = true) :
    containsSub l x = true := by
  cases l with
  | nil =>
    cases x with
    | nil => rfl
    | cons c cs => exact absurd h (by simp [isPre])
  | cons c cs => simp [containsSub, h]

/-- Leading whitespace removal fixes a list with a non-space head. -/
theorem dropLeadWs_cons_false {c : Char} (h : isSpaceChar c = false) (l : List Char) :
    dropLeadWs (c :: l) = c :: l := by
  simp [dropLeadWs, h]

/-- Stripping fixes a list enclosed by non-space characters. -/
theorem stripData_of_ends (c d : Char) (hc : isSpaceChar c = false)
    (hd : isSpaceChar d = false) (X : List Char) :
    stripData (c :: (X ++ [d])) = c :: (X ++ [d]) := by
  unfold stripData dropTrailWs
  rw [dropLeadWs_cons_false hc]
  have hrev : (c :: (X ++ [d])).reverse = d :: (X.reverse ++ [c]) := by simp
  rw [hrev, dropLeadWs_cons_false hd, ← hrev, List.reverse_reverse]

/-- Leading whitespace removal across an append. -/
theorem dropLeadWs_append (l m : List Char) :
    dropLeadWs (l ++ m) =
      if dropLeadWs l = [] then dropLeadWs m else dropLeadWs l ++ m := by
  induction l with
  | nil => simp [dropLeadWs]
  | cons c cs ih =>
    by_cases h : isSpaceChar c = true
    · simp [dropLeadWs, h, ih]
    · have h2 : isSpaceChar c = false := by simpa using h
      simp [dropLeadWs, h2]

/-- Trailing whitespace removal swallows a final newline. -/
theorem dropTrailWs_append_nl (l : List Char) :
    dropTrailWs (l ++ ['\n']) = dropTrailWs l := by
  have hsp : isSpaceChar '\n' = true := by decide
  simp [dropTrailWs, List.reverse_append, dropLeadWs, hsp]

/-- Stripping a newline-wrapped list strips the inner list. -/
theorem stripData_wrap_nl (b : List Char) :
    stripData ('\n' :: (b ++ ['\n'])) = stripData b := by
  have hsp : isSpaceChar '\n' = true := by decide
  show dropTrailWs (dropLeadWs ('\n' :: (b ++ ['\n']))) = stripData b
  rw [show dropLeadWs ('\n' :: (b ++ ['\n'])) = dropLeadWs (b ++ ['\n']) by
    simp [dropLeadWs, hsp]]
  rw [dropLeadWs_append]
  by_cases h : dropLeadWs b = []
  · rw [if_pos h]
    rw [show dropLeadWs ['\n'] = [] by decide]
    show dropTrailWs [] = stripData b
    rw [show stripData b = dropTrailWs (dropLeadWs b) from rfl, h]
  · rw [if_neg h, dropTrailWs_append_nl]
    rfl

/-! ### Claim C7 -/

/-- C7: a fenced fallback reply `"\x60\x60\x60sql\n" ++ body ++
"\n\x60\x60\x60"` with a backtick-free body is cleaned to the stripped
body before execution. -/
theorem c7_fence_cleaning (body : String) (hb : ∀ c ∈ body.data, ('\x60' == c) = false) :
    cleanSql ("\x60\x60\x60sql\n" ++ body ++ "\n\x60\x60\x60") = pyStrip body := by
  have hdata : ("\x60\x60\x60sql\n" ++ body ++ "\n\x60\x60\x60").data =
      '\x60' :: '\x60' :: '\x60' :: 's' :: 'q' :: 'l' :: '\n' ::
        (body.data ++ ['\n', '\x60', '\x60', '\x60']) := rfl
  have hshape : ("\x60\x60\x60sql\n" ++ body ++ "\n\x60\x60\x60").data =
      '\x60' :: (('\x60' :: '\x60' :: 's' :: 'q' :: 'l' :: '\n' ::
        (body.data ++ ['\n', '\x60', '\x60'])) ++ ['\x60']) := by
    rw [hdata]
    simp [List.append_assoc]
  have hps : pyStrip ("\x60\x60\x60sql\n" ++ body ++ "\n\x60\x60\x60") =
      "\x60\x60\x60sql\n" ++ body ++ "\n\x60\x60\x60" := by
    show String.mk (stripData ("\x60\x60\x60sql\n" ++ body ++ "\n\x60\x60\x60").data) = _
    rw [hshape, stripData_of_ends '\x60' '\x60' (by decide) (by decide)]
    rw [← hshape]
  have hin : pyIn "\x60\x60\x60" ("\x60\x60\x60sql\n" ++ body ++ "\n\x60\x60\x60") = true := by
    show containsSub ("\x60\x60\x60sql\n" ++ body ++ "\n\x60\x60\x60").data
      ['\x60', '\x60', '\x60'] = true
    rw [hdata]
    exact containsSub_of_isPre _ _ (by simp [isPre])
  have hlen : ("\x60\x60\x60sql\n" ++ body ++ "\n\x60\x60\x60").data.length =
      body.data.length + 11 := by
    rw [hdata]
    simp
  have hrep1 : pyReplace ("\x60\x60\x60sql\n" ++ body ++ "\n\x60\x60\x60")
      "\x60\x60\x60sql" "" =
      String.mk ('\n' :: (body.data ++ ['\n', '\x60', '\x60', '\x60'])) := by
    show String.mk (replaceFuel ['\x60', '\x60', '\x60', 's', 'q', 'l'] []
      ("\x60\x60\x60sql\n" ++ body ++ "\n\x60\x60\x60").data.length
      ("\x60\x60\x60sql\n" ++ body ++ "\n\x60\x60\x60").data) = _
    rw [hlen, hdata, replace1 body.data hb _ (by omega)]
  have hrep2 : pyReplace (String.mk ('\n' :: (body.data ++ ['\n', '\x60', '\x60', '\x60'])))
      "\x60\x60\x60" "" = String.mk ('\n' :: (body.data ++ ['\n'])) := by
    show String.mk (replaceFuel ['\x60', '\x60', '\x60'] []
      ('\n' :: (body.data ++ ['\n', '\x60', '\x60', '\x60'])).length
      ('\n' :: (body.data ++ ['\n', '\x60', '\x60', '\x60']))) = _
    have hl2 : ('\n' :: (body.data ++ ['\n', '\x60', '\x60', '\x60'])).length =
        body.data.length + 5 := by simp
    rw [hl2, replace2 body.data hb _ (by omega)]
  show (if pyIn "\x60\x60\x60" (pyStrip ("\x60\x60\x60sql\n" ++ body ++ "\n\x60\x60\x60")) = true
    then pyStrip (pyReplace (pyReplace
      (pyStrip ("\x60\x60\x60sql\n" ++ body ++ "\n\x60\x60\x60")) "\x60\x60\x60sql" "")
      "\x60\x60\x60" "")
    else pyStrip ("\x60\x60\x60sql\n" ++ body ++ "\n\x60\x60\x60")) = pyStrip body
  rw [hps, if_pos hin, hrep1, hrep2]
  show String.mk (stripData ('\n' :: (body.data ++ ['\n']))) = pyStrip body
  rw [stripData_wrap_nl]
  rfl

/-- Witness for C7: the reply from the spec's example is cleaned to
exactly `SELECT 1;`. -/
theorem c7_fence_cleaning_witness :
    (∀ c ∈ ("SELECT 1;" : String).data, ('\x60' == c) = false) ∧
    cleanSql "\x60\x60\x60sql\nSELECT 1;\n\x60\x60\x60" = "SELECT 1;" :=
  ⟨by decide, by
    have h := c7_fence_cleaning "SELECT 1;" (by decide)
    rw [show ("\x60\x60\x60sql\nSELECT 1;\n\x60\x60\x60" : String) =
      "\x60\x60\x60sql\n" ++ "SELECT 1;" ++ "\n\x60\x60\x60" by rfl]
    rw [h]
    decide⟩

end Vanna
